import Mathlib

/-!
Shallow embedding of `scripts/enforce.ts` (docker-enforce): a command-line
policy filter that decides whether a shell command is allowed on the host,
blocked, warned about, or transformed into a `docker exec` invocation.

External effects are modelled explicitly:
* the configuration file read by `loadConfig` becomes a `FileState`
  (missing / malformed / parsed record);
* the `docker ps --format` subprocess in `isContainerRunning` becomes an
  `Option String` (`none` = the call threw, `some out` = captured stdout).
-/

namespace DockerEnforce

/-- The four enforcement modes of the `enforcement` config field. -/
inductive Enforcement
  | block
  | warn
  | transform
  | disabled
deriving DecidableEq, Repr

/-- The `interceptPatterns` JSON object: each of the seven tool keys may be
present (`some b`) or absent (`none`), mirroring optional fields in TS. -/
structure InterceptPatterns where
  npm : Option Bool := none
  npx : Option Bool := none
  yarn : Option Bool := none
  pnpm : Option Bool := none
  node : Option Bool := none
  tsx : Option Bool := none
  bun : Option Bool := none
deriving DecidableEq, Repr

/-- The `DockerConfig` record; every field is optional in TS, so each is an
`Option` here (`none` = key absent / undefined). -/
structure DockerConfig where
  containerName : Option String := none
  enforcement : Option Enforcement := none
  allowedHostCommands : Option (List String) := none
  interceptPatterns : Option InterceptPatterns := none
deriving DecidableEq, Repr

/-- `interceptPatterns` value inside `DEFAULT_CONFIG`: all seven tools true. -/
def defaultInterceptPatterns : InterceptPatterns :=
  { npm := some true, npx := some true, yarn := some true, pnpm := some true,
    node := some true, tsx := some true, bun := some true }

/-- `DEFAULT_CONFIG` from the source: enforcement block, empty allow-list,
all tools intercepted, no container name. -/
def DEFAULT_CONFIG : DockerConfig :=
  { containerName := none,
    enforcement := some Enforcement.block,
    allowedHostCommands := some [],
    interceptPatterns := some defaultInterceptPatterns }

/-- The character class `\s` of JavaScript regular expressions. -/
def jsWhitespace (c : Char) : Bool :=
  c = ' ' || c = '\t' || c = '\n' || c = '\r' ||
  c = Char.ofNat 0x0b || c = Char.ofNat 0x0c ||
  c = Char.ofNat 0xa0 || c = Char.ofNat 0x1680 ||
  (0x2000 ≤ c.toNat && c.toNat ≤ 0x200a) ||
  c = Char.ofNat 0x2028 || c = Char.ofNat 0x2029 ||
  c = Char.ofNat 0x202f || c = Char.ofNat 0x205f ||
  c = Char.ofNat 0x3000 || c = Char.ofNat 0xfeff

/-- Strip an exact leading character sequence; `none` if it is not there. -/
def stripLeading : List Char → List Char → Option (List Char)
  | [], s => some s
  | _ :: _, [] => none
  | t :: ts, c :: cs => if c = t then stripLeading ts cs else none

/-- Matcher for the table entries `^tool\s+(alt1|alt2|...)` (or `^tool\s+`
when `alts` is empty).  Because every alternative starts with a letter, the
regex matches exactly when the command starts with the tool name, then at
least one `\s` character, then (if the alternation is nonempty) one of the
alternatives as a literal leading substring once all whitespace is consumed. -/
def matchesPattern (tool : String) (alts : List String) (cmd : String) : Bool :=
  match stripLeading tool.data cmd.data with
  | none => false
  | some rest =>
    match rest with
    | [] => false
    | c :: _ =>
      jsWhitespace c &&
        (alts.isEmpty ||
          alts.any fun a => a.data.isPrefixOf (rest.dropWhile jsWhitespace))

/-- `INTERCEPT_PATTERNS`: tool name together with the alternation after
`\s+` in its regular expression (empty list = bare `^tool\s+`). -/
def INTERCEPT_PATTERNS : List (String × List String) :=
  [("npm", ["install", "ci", "run", "test", "exec", "start", "build"]),
   ("npx", []),
   ("yarn", ["add", "install", "run", "start", "build"]),
   ("pnpm", ["add", "install", "run", "start", "build"]),
   ("node", []),
   ("tsx", []),
   ("bun", ["run", "install", "add"])]

/-- `INTERCEPT_PATTERNS[tool]` lookup (`none` models `undefined`). -/
def lookupPattern (tool : String) : Option (String × List String) :=
  INTERCEPT_PATTERNS.find? fun e => e.1 = tool

/-- `INTERCEPT_PATTERNS[tool]?.test(command)`: `undefined` tests false. -/
def toolMatches (tool : String) (cmd : String) : Bool :=
  match lookupPattern tool with
  | none => false
  | some e => matchesPattern e.1 e.2 cmd

/-- The seven tool keys of the intercept table. -/
def toolNames : List String :=
  ["npm", "npx", "yarn", "pnpm", "node", "tsx", "bun"]

/-- Field access by tool name (a key not in the table yields `none`). -/
def InterceptPatterns.get (p : InterceptPatterns) (tool : String) : Option Bool :=
  if tool = "npm" then p.npm
  else if tool = "npx" then p.npx
  else if tool = "yarn" then p.yarn
  else if tool = "pnpm" then p.pnpm
  else if tool = "node" then p.node
  else if tool = "tsx" then p.tsx
  else if tool = "bun" then p.bun
  else none

/-- One entry of `Object.entries`: absent keys are skipped. -/
def optEntry (name : String) : Option Bool → List (String × Bool)
  | none => []
  | some b => [(name, b)]

/-- `Object.entries(patterns)`: key/value pairs for the present fields. -/
def InterceptPatterns.entries (p : InterceptPatterns) : List (String × Bool) :=
  optEntry "npm" p.npm ++ optEntry "npx" p.npx ++ optEntry "yarn" p.yarn ++
  optEntry "pnpm" p.pnpm ++ optEntry "node" p.node ++ optEntry "tsx" p.tsx ++
  optEntry "bun" p.bun

/-- `shouldIntercept` from the source: some enabled tool whose regex
matches the command. -/
def shouldIntercept (command : String) (config : DockerConfig) : Bool :=
  let patterns := config.interceptPatterns.getD defaultInterceptPatterns
  patterns.entries.any fun e => e.2 && toolMatches e.1 command

/-- JS `p.startsWith(s)` on our char-list representation. -/
def strStartsWith (s p : String) : Bool :=
  p.data.isPrefixOf s.data

/-- `isAllowed` from the source: exact equality with an allow-list entry, or
the entry followed by a single space as a literal leading substring. -/
def isAllowed (command : String) (config : DockerConfig) : Bool :=
  (config.allowedHostCommands.getD []).any fun a =>
    command = a || strStartsWith command (a ++ " ")

/-- JS `output.split(s!"\n")` for a single-character separator: every
newline splits, empty pieces are kept. -/
def splitNl : List Char → List (List Char)
  | [] => [[]]
  | c :: cs =>
    let r := splitNl cs
    if c = '\n' then [] :: r
    else
      match r with
      | h :: t => (c :: h) :: t
      | [] => [[c]]

/-- `isContainerRunning` from the source.  `dockerPs` is the outcome of the
`docker ps --format` subprocess: `none` when `execSync` throws (runtime
unavailable or non-zero exit), `some out` its captured stdout otherwise. -/
def isContainerRunning (dockerPs : Option String) (containerName : String) : Bool :=
  match dockerPs with
  | none => false
  | some output => ((splitNl output.data).map String.mk).contains containerName

/-- Outcome of reading `.claude/docker-config.json`. -/
inductive FileState
  | missing
  | malformed
  | parsed (c : DockerConfig)
deriving DecidableEq, Repr

/-- One field of the JS spread `{...DEFAULT_CONFIG, ...config}`: a key
present in the overlay replaces the base value wholesale. -/
def overrideField {α : Type} : Option α → Option α → Option α
  | some v, _ => some v
  | none, base => base

/-- The shallow merge `{...DEFAULT_CONFIG, ...config}`. -/
def spreadMerge (base overlay : DockerConfig) : DockerConfig :=
  { containerName := overrideField overlay.containerName base.containerName,
    enforcement := overrideField overlay.enforcement base.enforcement,
    allowedHostCommands :=
      overrideField overlay.allowedHostCommands base.allowedHostCommands,
    interceptPatterns :=
      overrideField overlay.interceptPatterns base.interceptPatterns }

/-- `loadConfig`: defaults when the file is missing or unparseable, shallow
merge over the defaults otherwise. -/
def loadConfig : FileState → DockerConfig
  | FileState.missing => DEFAULT_CONFIG
  | FileState.malformed => DEFAULT_CONFIG
  | FileState.parsed c => spreadMerge DEFAULT_CONFIG c

/-- The four terminal actions of `EnforceResult`. -/
inductive Action
  | allow
  | block
  | warn
  | transform
deriving DecidableEq, Repr

/-- `EnforceResult` from the source. -/
structure EnforceResult where
  action : Action
  message : Option String := none
  transformedCommand : Option String := none
deriving DecidableEq, Repr

/-- `enforce` from the source.  JS truthiness of `containerName` makes both
`undefined` and the empty string take the `!containerName` branch. -/
def enforce (fileState : FileState) (dockerPs : Option String)
    (command : String) : EnforceResult :=
  let config := loadConfig fileState
  if config.enforcement = some Enforcement.disabled then
    { action := Action.allow }
  else if !shouldIntercept command config then
    { action := Action.allow }
  else if isAllowed command config then
    { action := Action.allow }
  else
    match config.enforcement with
    | some Enforcement.block =>
      { action := Action.block, message := some "Docker-first policy violation" }
    | some Enforcement.warn =>
      { action := Action.warn }
    | some Enforcement.transform =>
      match config.containerName with
      | none =>
        { action := Action.block, message := some "No container configured" }
      | some name =>
        if name = "" then
          { action := Action.block, message := some "No container configured" }
        else if !isContainerRunning dockerPs name then
          { action := Action.block, message := some "Container not running" }
        else
          { action := Action.transform,
            transformedCommand := some ("docker exec " ++ name ++ " " ++ command) }
    | _ => { action := Action.allow }

/-- The `enforce` CLI path of `main` (also the default sub-command), with
the command already assembled from the argument vector: exit 1 on an empty
command (usage error) or a block decision, exit 0 otherwise. -/
def runEnforceCli (fileState : FileState) (dockerPs : Option String)
    (cmd : String) : Nat :=
  if cmd = "" then 1
  else if (enforce fileState dockerPs cmd).action = Action.block then 1
  else 0

/-- The `check` sub-command of `main`: first output line and exit code. -/
def runCheckCli (fileState : FileState) (cmd : String) : String × Nat :=
  if cmd = "" then ("Usage: enforce.ts check <command>", 1)
  else
    let config := loadConfig fileState
    if shouldIntercept cmd config && !isAllowed cmd config then
      ("WOULD_BLOCK: " ++ cmd, 1)
    else
      ("ALLOWED: " ++ cmd, 0)

/-- The `validate` sub-command of `main`: output line and exit code. -/
def runValidateCli (fileState : FileState) (dockerPs : Option String) :
    String × Nat :=
  let config := loadConfig fileState
  match config.containerName with
  | none => ("ERROR: No container configured", 1)
  | some name =>
    if name = "" then ("ERROR: No container configured", 1)
    else if isContainerRunning dockerPs name then
      ("OK: Container \x27" ++ name ++ "\x27 is running", 0)
    else
      ("ERROR: Container \x27" ++ name ++ "\x27 is not running", 1)

/-- The `transform` sub-command of `main`: output line and exit code. -/
def runTransformCli (fileState : FileState) (cmd : String) : String × Nat :=
  if cmd = "" then ("Usage: enforce.ts transform <command>", 1)
  else
    let config := loadConfig fileState
    match config.containerName with
    | none => ("ERROR: No container configured", 1)
    | some name =>
      if name = "" then ("ERROR: No container configured", 1)
      else ("docker exec " ++ name ++ " " ++ cmd, 0)

/-! ### Helper lemmas -/

/-- `shouldIntercept` reads only the `interceptPatterns` field. -/
theorem shouldIntercept_eq_of_patterns (cmd : String) {c c' : DockerConfig}
    (h : c.interceptPatterns = c'.interceptPatterns) :
    shouldIntercept cmd c = shouldIntercept cmd c' := by
  unfold shouldIntercept
  rw [h]

/-- `isAllowed` reads only the `allowedHostCommands` field. -/
theorem isAllowed_eq_of_allowed (cmd : String) {c c' : DockerConfig}
    (h : c.allowedHostCommands = c'.allowedHostCommands) :
    isAllowed cmd c = isAllowed cmd c' := by
  unfold isAllowed
  rw [h]

/-- Characterisation of `isAllowed` in terms of the allow-list entries. -/
theorem isAllowed_iff (cmd : String) (cfg : DockerConfig) :
    isAllowed cmd cfg = true ↔
      ∃ e ∈ cfg.allowedHostCommands.getD [],
        cmd = e ∨ strStartsWith cmd (e ++ " ") = true := by
  unfold isAllowed
  rw [List.any_eq_true]
  constructor
  · rintro ⟨e, he, hp⟩
    rw [Bool.or_eq_true, decide_eq_true_iff] at hp
    exact ⟨e, he, hp⟩
  · rintro ⟨e, he, hp⟩
    refine ⟨e, he, ?_⟩
    rw [Bool.or_eq_true, decide_eq_true_iff]
    exact hp

/-- Membership in a single `Object.entries` item. -/
theorem mem_optEntry {name : String} {ob : Option Bool} {x : String × Bool}
    (h : x ∈ optEntry name ob) : x.1 = name ∧ ob = some x.2 := by
  cases ob with
  | none => simp [optEntry] at h
  | some b =>
    simp [optEntry] at h
    rw [h]
    exact ⟨rfl, rfl⟩

/-- Every entry produced by `Object.entries(patterns)` is one of the seven
tool keys, present in the record with the entry's value. -/
theorem mem_entries {p : InterceptPatterns} {x : String × Bool}
    (h : x ∈ p.entries) : x.1 ∈ toolNames ∧ p.get x.1 = some x.2 := by
  unfold InterceptPatterns.entries at h
  simp only [List.mem_append] at h
  rcases h with ((((((h | h) | h) | h) | h) | h) | h) <;>
    obtain ⟨h1, h2⟩ := mem_optEntry h <;>
    rw [h1] <;>
    exact ⟨by decide, by simp [InterceptPatterns.get]; exact h2⟩

/-! ### Concrete configurations used in witnesses and counterexamples -/

/-- Config file that only disables enforcement. -/
def disabledEnv : DockerConfig := { enforcement := some Enforcement.disabled }

/-- Config file selecting transform mode without a container name. -/
def transformNoNameEnv : DockerConfig :=
  { enforcement := some Enforcement.transform }

/-- Config file selecting transform mode with container name `app`. -/
def transformNamedEnv : DockerConfig :=
  { enforcement := some Enforcement.transform, containerName := some "app" }

/-- Config file selecting transform mode with an empty container name. -/
def emptyNameEnv : DockerConfig :=
  { enforcement := some Enforcement.transform, containerName := some "" }

/-- Config file whose allow-list holds the single entry of the spec's
worked example. -/
def lintAllowEnv : DockerConfig :=
  { allowedHostCommands := some ["npm run lint"] }

/-- An `interceptPatterns` object holding only the `npm` key. -/
def npmOnlyPatterns : InterceptPatterns := { npm := some true }

/-- Config file whose `interceptPatterns` object holds only the `npm` key. -/
def npmOnlyEnv : DockerConfig := { interceptPatterns := some npmOnlyPatterns }

/-! ### Claims -/

/-- Claim C1: for every command matching an enabled intercept pattern and
not matched by the allow-list, under enforcement mode `block`, `enforce`
returns action = block and the `enforce` CLI path exits with code 1. -/
theorem blockModeBlocks (fs : FileState) (ps : Option String) (cmd : String)
    (hI : shouldIntercept cmd (loadConfig fs) = true)
    (hA : isAllowed cmd (loadConfig fs) = false)
    (hM : (loadConfig fs).enforcement = some Enforcement.block) :
    (enforce fs ps cmd).action = Action.block ∧ runEnforceCli fs ps cmd = 1 := by
  have hact : (enforce fs ps cmd).action = Action.block := by
    unfold enforce
    simp [hI, hA, hM]
  refine ⟨hact, ?_⟩
  unfold runEnforceCli
  by_cases hc : cmd = ""
  · simp [hc]
  · simp [hc, hact]

/-- Witness for C1 at the default configuration and `npm install express`. -/
theorem blockModeBlocksWitness :
    (enforce FileState.missing none "npm install express").action = Action.block ∧
    runEnforceCli FileState.missing none "npm install express" = 1 :=
  blockModeBlocks FileState.missing none "npm install express"
    (by decide) (by decide) (by decide)

/-- Claim C5: whenever the loaded configuration has enforcement mode
`disabled`, `enforce` returns action = allow for every command, including
intercepted, non-allow-listed ones. -/
theorem disabledAllows (fs : FileState) (ps : Option String) (cmd : String)
    (h : (loadConfig fs).enforcement = some Enforcement.disabled) :
    (enforce fs ps cmd).action = Action.allow := by
  unfold enforce
  simp [h]

/-- Witness for C5 at a disabled-mode config and an intercepted,
non-allow-listed command. -/
theorem disabledAllowsWitness :
    shouldIntercept "npm install express"
      (loadConfig (FileState.parsed disabledEnv)) = true ∧
    isAllowed "npm install express"
      (loadConfig (FileState.parsed disabledEnv)) = false ∧
    (enforce (FileState.parsed disabledEnv) none "npm install express").action =
      Action.allow :=
  ⟨by decide, by decide,
   disabledAllows (FileState.parsed disabledEnv) none "npm install express"
     (by decide)⟩

/-- Claim C6: an intercepted, non-allow-listed command under transform mode
is blocked with message `No container configured` when no container name is
configured, and with message `Container not running` when a (nonempty) name
is configured but the container-status check reports it not running. -/
theorem transformModeFailures (fs : FileState) (ps : Option String)
    (cmd : String)
    (hI : shouldIntercept cmd (loadConfig fs) = true)
    (hA : isAllowed cmd (loadConfig fs) = false)
    (hM : (loadConfig fs).enforcement = some Enforcement.transform) :
    ((loadConfig fs).containerName = none →
      enforce fs ps cmd =
        { action := Action.block, message := some "No container configured" }) ∧
    (∀ name, (loadConfig fs).containerName = some name → name ≠ "" →
      isContainerRunning ps name = false →
      enforce fs ps cmd =
        { action := Action.block, message := some "Container not running" }) := by
  constructor
  · intro hN
    unfold enforce
    simp [hI, hA, hM, hN]
  · intro name hN hne hR
    unfold enforce
    simp [hI, hA, hM, hN, hne, hR]

/-- Witness for C6: both failure branches at concrete configurations. -/
theorem transformModeFailuresWitness :
    enforce (FileState.parsed transformNoNameEnv) none "npm install left-pad" =
      { action := Action.block, message := some "No container configured" } ∧
    enforce (FileState.parsed transformNamedEnv) none "npm install left-pad" =
      { action := Action.block, message := some "Container not running" } :=
  ⟨(transformModeFailures (FileState.parsed transformNoNameEnv) none
      "npm install left-pad" (by decide) (by decide) (by decide)).1 (by decide),
   (transformModeFailures (FileState.parsed transformNamedEnv) none
      "npm install left-pad" (by decide) (by decide) (by decide)).2 "app"
     (by decide) (by decide) (by decide)⟩

/-- Claim C2 as stated is false: it quantifies over every command string,
but a command that matches no enabled intercept pattern — here `git status`
— is allowed, not transformed, even though the mode is transform, a
container name is configured and the container-status check reports it
running. -/
theorem transformModeCounterexample :
    (loadConfig (FileState.parsed transformNamedEnv)).enforcement =
      some Enforcement.transform ∧
    (loadConfig (FileState.parsed transformNamedEnv)).containerName =
      some "app" ∧
    isContainerRunning (some "app\n") "app" = true ∧
    enforce (FileState.parsed transformNamedEnv) (some "app\n") "git status" =
      { action := Action.allow } := by
  decide

/-- Claim C2 amended: for every command matching an enabled intercept
pattern and not matched by the allow-list, under transform mode with a
nonempty configured container name whose container-status check reports it
running, `enforce` returns action = transform with the transformed command
`docker exec <name> <command>` exactly. -/
theorem transformModeTransforms (fs : FileState) (ps : Option String)
    (cmd name : String)
    (hI : shouldIntercept cmd (loadConfig fs) = true)
    (hA : isAllowed cmd (loadConfig fs) = false)
    (hM : (loadConfig fs).enforcement = some Enforcement.transform)
    (hN : (loadConfig fs).containerName = some name)
    (hne : name ≠ "")
    (hR : isContainerRunning ps name = true) :
    enforce fs ps cmd =
      { action := Action.transform,
        transformedCommand := some ("docker exec " ++ name ++ " " ++ cmd) } := by
  unfold enforce
  simp [hI, hA, hM, hN, hne, hR]

/-- Witness for the amended C2 at a running container `app`. -/
theorem transformModeTransformsWitness :
    enforce (FileState.parsed transformNamedEnv) (some "app\nweb\n")
      "npm install left-pad" =
      { action := Action.transform,
        transformedCommand :=
          some ("docker exec " ++ "app" ++ " " ++ "npm install left-pad") } :=
  transformModeTransforms (FileState.parsed transformNamedEnv)
    (some "app\nweb\n") "npm install left-pad" "app"
    (by decide) (by decide) (by decide) (by decide) (by decide) (by decide)

/-- Claim C3: every command matched by the allow-list — exactly equal to
some entry, or beginning with some entry followed by a space — is allowed
by `enforce`, whatever the configured enforcement mode. -/
theorem allowListAllows (fs : FileState) (ps : Option String) (cmd : String)
    (h : ∃ e ∈ (loadConfig fs).allowedHostCommands.getD [],
      cmd = e ∨ strStartsWith cmd (e ++ " ") = true) :
    (enforce fs ps cmd).action = Action.allow := by
  have hA : isAllowed cmd (loadConfig fs) = true :=
    (isAllowed_iff cmd (loadConfig fs)).mpr h
  unfold enforce
  by_cases hd : (loadConfig fs).enforcement = some Enforcement.disabled
  · simp [hd]
  · by_cases hi : shouldIntercept cmd (loadConfig fs)
    · simp [hd, hi, hA]
    · simp [hd, hi]

/-- Witness for C3: the allow-listed command `npm run lint` is allowed even
though it matches the npm intercept pattern (with default mode block). -/
theorem allowListAllowsWitness :
    (enforce (FileState.parsed lintAllowEnv) none "npm run lint").action =
      Action.allow :=
  allowListAllows (FileState.parsed lintAllowEnv) none "npm run lint"
    (by decide)

/-- Claim C4 is false on the code: with allow-list `["npm run lint"]` the
allow-list check returns false on `npm run lint:fix`, because the check
appends a literal space to the entry and `npm run lint:fix` continues with
a colon, not a space, and is not exactly equal to the entry either. -/
theorem allowListColonCounterexample :
    isAllowed "npm run lint:fix" lintAllowEnv = false := by
  decide

/-- Claim C4 amended: the entry `npm run lint` allows itself and commands
extending it after a space (such as `npm run lint --fix`), but not
`npm run lint:fix`, whose colon is not a space boundary. -/
theorem allowListSpaceBoundary :
    isAllowed "npm run lint" lintAllowEnv = true ∧
    isAllowed "npm run lint --fix" lintAllowEnv = true ∧
    isAllowed "npm run lint:fix" lintAllowEnv = false := by
  decide

/-- Claim C7: the `check` sub-command prints `WOULD_BLOCK: <command>` and
exits 1 exactly when the command is intercepted and not allow-listed, and
otherwise prints `ALLOWED: <command>` and exits 0; its result depends only
on the intercept patterns and the allow-list (never on enforcement mode or
container status, which it does not consult), it reports WOULD_BLOCK even
under a disabled-mode config, and `check "node app.js"` under the built-in
default configuration prints `WOULD_BLOCK: node app.js` and exits 1. -/
theorem checkCliSpec :
    (∀ fs cmd, cmd ≠ "" →
      runCheckCli fs cmd =
        if shouldIntercept cmd (loadConfig fs) && !isAllowed cmd (loadConfig fs)
        then ("WOULD_BLOCK: " ++ cmd, 1)
        else ("ALLOWED: " ++ cmd, 0)) ∧
    (∀ fs fs' cmd,
      (loadConfig fs).interceptPatterns = (loadConfig fs').interceptPatterns →
      (loadConfig fs).allowedHostCommands = (loadConfig fs').allowedHostCommands →
      runCheckCli fs cmd = runCheckCli fs' cmd) ∧
    runCheckCli (FileState.parsed disabledEnv) "node app.js" =
      ("WOULD_BLOCK: node app.js", 1) ∧
    runCheckCli FileState.missing "node app.js" =
      ("WOULD_BLOCK: node app.js", 1) := by
  refine ⟨?_, ?_, by decide, by decide⟩
  · intro fs cmd hc
    unfold runCheckCli
    simp [hc]
  · intro fs fs' cmd hp ha
    unfold runCheckCli
    by_cases hc : cmd = ""
    · simp [hc]
    · simp only [hc, if_false]
      rw [shouldIntercept_eq_of_patterns cmd hp, isAllowed_eq_of_allowed cmd ha]

/-- Witness for C7: a non-intercepted command is reported ALLOWED. -/
theorem checkCliSpecWitness :
    runCheckCli FileState.missing "git status" = ("ALLOWED: git status", 0) := by
  rw [checkCliSpec.1 FileState.missing "git status" (by decide)]
  decide

/-- Claim C8: the container-status check returns false whenever the
`docker ps` call fails (modelled as `none`), never propagating an error,
and returns true exactly when the call succeeded and the container name is
a member of the newline-split output. -/
theorem containerRunningSpec (ps : Option String) (name : String) :
    (ps = none → isContainerRunning ps name = false) ∧
    (isContainerRunning ps name = true ↔
      ∃ out, ps = some out ∧ name ∈ (splitNl out.data).map String.mk) := by
  cases ps with
  | none =>
    refine ⟨fun _ => rfl, ?_⟩
    simp [isContainerRunning]
  | some out =>
    refine ⟨fun h => ?_, ?_⟩
    · cases h
    unfold isContainerRunning
    simp only [List.contains]
    rw [List.elem_iff]
    constructor
    · intro h
      exact ⟨out, rfl, h⟩
    · rintro ⟨o, ho, hm⟩
      cases ho
      exact hm

/-- Witness for C8 at a failed call: the runtime being unavailable yields
`not running`. -/
theorem containerRunningSpecWitness :
    isContainerRunning none "web" = false :=
  (containerRunningSpec none "web").1 rfl

/-- Claim C9: configuration merging is shallow — every top-level field
present in the loaded file replaces the corresponding default wholesale —
so when the file's `interceptPatterns` object is present but omits a tool,
commands matching only that tool's pattern are not intercepted, although
the built-in default intercepts all seven tools. -/
theorem shallowMergeSpec (c : DockerConfig) (p : InterceptPatterns)
    (tool cmd : String)
    (hp : c.interceptPatterns = some p) :
    (loadConfig (FileState.parsed c)).interceptPatterns = some p ∧
    (∀ x, c.containerName = some x →
      (loadConfig (FileState.parsed c)).containerName = some x) ∧
    (∀ x, c.enforcement = some x →
      (loadConfig (FileState.parsed c)).enforcement = some x) ∧
    (∀ x, c.allowedHostCommands = some x →
      (loadConfig (FileState.parsed c)).allowedHostCommands = some x) ∧
    (tool ∈ toolNames → p.get tool = none → toolMatches tool cmd = true →
      (∀ t ∈ toolNames, t ≠ tool → toolMatches t cmd = false) →
      shouldIntercept cmd (loadConfig (FileState.parsed c)) = false) := by
  have hip : (loadConfig (FileState.parsed c)).interceptPatterns = some p := by
    simp [loadConfig, spreadMerge, overrideField, hp]
  refine ⟨hip, ?_, ?_, ?_, ?_⟩
  · intro x hx
    simp [loadConfig, spreadMerge, overrideField, hx]
  · intro x hx
    simp [loadConfig, spreadMerge, overrideField, hx]
  · intro x hx
    simp [loadConfig, spreadMerge, overrideField, hx]
  · intro _ hnone _ hothers
    unfold shouldIntercept
    rw [hip]
    simp only [Option.getD_some]
    rw [List.any_eq_false]
    intro x hx
    obtain ⟨ht, hget⟩ := mem_entries hx
    have hne : x.1 ≠ tool := by
      intro he
      rw [he, hnone] at hget
      cases hget
    simp [hothers x.1 ht hne]

/-- Witness for C9: an `interceptPatterns` object holding only `npm` makes
`node app.js` pass unintercepted. -/
theorem shallowMergeSpecWitness :
    shouldIntercept "node app.js" (loadConfig (FileState.parsed npmOnlyEnv)) =
      false :=
  (shallowMergeSpec npmOnlyEnv npmOnlyPatterns "node" "node app.js"
    (by decide)).2.2.2.2 (by decide) (by decide) (by decide) (by decide)

/-- Claim C10: a configured `containerName` equal to the empty string is
treated like an absent one throughout the public interface: `enforce` in
transform mode blocks with `No container configured` on intercepted,
non-allow-listed commands, the `validate` sub-command prints
`ERROR: No container configured` and exits 1, and the `transform`
sub-command prints the same error and exits 1. -/
theorem emptyContainerNameSpec (fs : FileState) (ps : Option String)
    (cmd : String)
    (hN : (loadConfig fs).containerName = some "") :
    ((loadConfig fs).enforcement = some Enforcement.transform →
      shouldIntercept cmd (loadConfig fs) = true →
      isAllowed cmd (loadConfig fs) = false →
      enforce fs ps cmd =
        { action := Action.block, message := some "No container configured" }) ∧
    runValidateCli fs ps = ("ERROR: No container configured", 1) ∧
    (cmd ≠ "" → runTransformCli fs cmd = ("ERROR: No container configured", 1)) := by
  refine ⟨?_, ?_, ?_⟩
  · intro hM hI hA
    unfold enforce
    simp [hI, hA, hM, hN]
  · unfold runValidateCli
    simp [hN]
  · intro hc
    unfold runTransformCli
    simp [hc, hN]

/-- Witness for C10 at the empty-name transform config. -/
theorem emptyContainerNameSpecWitness :
    enforce (FileState.parsed emptyNameEnv) none "npm install left-pad" =
      { action := Action.block, message := some "No container configured" } ∧
    runValidateCli (FileState.parsed emptyNameEnv) none =
      ("ERROR: No container configured", 1) ∧
    runTransformCli (FileState.parsed emptyNameEnv) "npm install left-pad" =
      ("ERROR: No container configured", 1) :=
  ⟨(emptyContainerNameSpec (FileState.parsed emptyNameEnv) none
      "npm install left-pad" (by decide)).1 (by decide) (by decide) (by decide),
   (emptyContainerNameSpec (FileState.parsed emptyNameEnv) none
      "npm install left-pad" (by decide)).2.1,
   (emptyContainerNameSpec (FileState.parsed emptyNameEnv) none
      "npm install left-pad" (by decide)).2.2 (by decide)⟩

end DockerEnforce
